import Mathlib

/-!
Verification development for the go-stremio addon SDK.

This file gives a shallow embedding, in Lean, of the request-routing and
response-shaping layer of the SDK:

* `createHandler` (the common catalog/stream dispatch handler) from
  `handlers.go`, including percent-unescaping of the media ID, handler lookup,
  user-data decoding, sentinel-error status mapping, JSON envelope wrapping and
  the ETag / Cache-Control logic;
* `decodeUserData`, with its Base64URL (`TrimSuffix`-based) and
  percent-unescaping branches;
* `createManifestHandler`, including the `configurationRequired` forcing and
  the manifest-callback protocol;
* the `Manifest` data model from `types.go` together with its `clone` method.

Go slices are modelled as `Option (GoSlice α)`: `none` is a nil slice, and a
non-nil slice carries an allocation identifier (`allocId`) plus its element
list, so that freshness of allocations made by `clone` can be stated.  Go
errors are modelled with an allocation identifier as well, since the dispatch
code compares errors with `==`, which for `errors.New` values is pointer
identity.  Machine integers are modelled as `Nat` (statuses, counters) and
byte strings as `List Nat`.  The fiber `SendStatus` call is modelled
faithfully to fiber v2: it sets the default status message (`Not Found`,
`Bad Request`, …) as the body of an otherwise empty response, while statuses
that must not carry a body (1xx, 204, 304) have their body stripped on the
wire by fasthttp.
-/

namespace Stremio

/-! ## Hex formatting (model of `strconv.FormatUint(h, 16)`) -/

/-- A single lowercase hexadecimal digit, as produced by Go's
`strconv.FormatUint` with base 16. -/
def hexDigitChar (n : Nat) : Char :=
  if n < 10 then Char.ofNat (48 + n) else Char.ofNat (87 + n)

/-- Digits of `n` in base 16, most significant first; `fuel` bounds the digit
count (any `fuel > log16 n` is enough, see `toHex`).
Model of the digit loop of `strconv.FormatUint(h, 16)`. -/
def hexCharsAux : Nat → Nat → List Char
  | 0, _ => []
  | fuel + 1, n =>
    if n < 16 then [hexDigitChar n]
    else hexCharsAux fuel (n / 16) ++ [hexDigitChar (n % 16)]

/-- Model of `strconv.FormatUint(h, 16)`: minimal lowercase hex digits.
`n + 1` units of fuel always suffice since `n / 16 < n` for `n ≥ 16`. -/
def toHex (n : Nat) : String :=
  String.mk (hexCharsAux (n + 1) n)

/-! ## Percent-unescaping (model of `url.PathUnescape`) -/

/-- The numeric value of a hexadecimal digit character, or `none`.
Model of the `ishex`/`unhex` pair in Go's `net/url`. -/
def hexVal (c : Char) : Option Nat :=
  if '0' ≤ c ∧ c ≤ '9' then some (c.toNat - 48)
  else if 'a' ≤ c ∧ c ≤ 'f' then some (c.toNat - 87)
  else if 'A' ≤ c ∧ c ≤ 'F' then some (c.toNat - 55)
  else none

/-- Model of `url.PathUnescape` on a character list: each `%XY` with two hex
digits becomes the character with code `16*X + Y`; a `%` not followed by two
hex digits is an error (`none`). -/
def pathUnescapeChars : List Char → Option (List Char)
  | [] => some []
  | '%' :: h1 :: h2 :: rest =>
    match hexVal h1, hexVal h2 with
    | some a, some b => (pathUnescapeChars rest).map (Char.ofNat (a * 16 + b) :: ·)
    | _, _ => none
  | '%' :: _ => none
  | c :: rest => (pathUnescapeChars rest).map (c :: ·)

/-- Model of `url.PathUnescape` on strings. `none` models a non-nil error. -/
def pathUnescape (s : String) : Option String :=
  (pathUnescapeChars s.data).map String.mk

/-- The bytes of a string; ASCII assumed (bytes modelled as code points). -/
def strBytes (s : String) : List Nat :=
  s.data.map Char.toNat

/-! ## Base64URL (model of `encoding/base64` with `base64.URLEncoding`) -/

/-- Value of a character in the URL-safe Base64 alphabet; `none` for any
character outside it (in particular for `=`, which the `NoPadding` decoder
rejects). -/
def b64Val (c : Char) : Option Nat :=
  if 'A' ≤ c ∧ c ≤ 'Z' then some (c.toNat - 65)
  else if 'a' ≤ c ∧ c ≤ 'z' then some (c.toNat - 71)
  else if '0' ≤ c ∧ c ≤ '9' then some (c.toNat + 4)
  else if c = '-' then some 62
  else if c = '_' then some 63
  else none

/-- The URL-safe Base64 alphabet character for a 6-bit value. -/
def b64Chr (n : Nat) : Char :=
  if n < 26 then Char.ofNat (65 + n)
  else if n < 52 then Char.ofNat (71 + n)
  else if n < 62 then Char.ofNat (n - 4)
  else if n = 62 then '-'
  else '_'

/-- Reassemble bytes from a list of 6-bit values, in groups of four
(with a trailing group of two or three values for one or two final bytes).
A trailing group of a single value is a decoding error, as in Go. -/
def b64DecodeVals : List Nat → Option (List Nat)
  | [] => some []
  | [_] => none
  | [a, b] => some [a * 4 + b / 16]
  | [a, b, c] => some [a * 4 + b / 16, (b % 16) * 16 + c / 4]
  | a :: b :: c :: d :: rest =>
    (b64DecodeVals rest).map
      ([a * 4 + b / 16, (b % 16) * 16 + c / 4, (c % 4) * 64 + d] ++ ·)

/-- The 6-bit values of a character list; `none` as soon as one character is
outside the URL-safe alphabet. -/
def b64Vals : List Char → Option (List Nat)
  | [] => some []
  | c :: rest =>
    match b64Val c, b64Vals rest with
    | some v, some vs => some (v :: vs)
    | _, _ => none

/-- Model of `base64.URLEncoding.WithPadding(base64.NoPadding).DecodeString`:
every character must be in the URL-safe alphabet (no `=` accepted), then the
6-bit values are packed into bytes. -/
def b64DecodeNoPad (cs : List Char) : Option (List Nat) :=
  match b64Vals cs with
  | none => none
  | some vals => b64DecodeVals vals

/-- Unpadded URL-safe Base64 encoding of a byte list. -/
def b64EncodeNoPad : List Nat → List Char
  | [] => []
  | [x] => [b64Chr (x / 4), b64Chr (x % 4 * 16)]
  | [x, y] => [b64Chr (x / 4), b64Chr (x % 4 * 16 + y / 16), b64Chr (y % 16 * 4)]
  | x :: y :: z :: rest =>
    b64Chr (x / 4) :: b64Chr (x % 4 * 16 + y / 16) ::
      b64Chr (y % 16 * 4 + z / 64) :: b64Chr (z % 64) :: b64EncodeNoPad rest

/-- Padded URL-safe Base64 encoding: the unpadded encoding followed by the
`=` padding Go's `base64.URLEncoding` (with default padding) appends. -/
def b64EncodePad (bs : List Nat) : List Char :=
  b64EncodeNoPad bs ++
    (if bs.length % 3 = 1 then ['=', '=']
     else if bs.length % 3 = 2 then ['=']
     else [])

/-- Model of `strings.TrimSuffix(data, "=")`: removes one trailing `=`
if present (and only one). -/
def trimOneEq (cs : List Char) : List Char :=
  if cs.getLast? = some '=' then cs.dropLast else cs

/-! ## JSON values and Go-style serialization -/

/-- JSON values, used to model results of Go's `json.Marshal`/`json.Unmarshal`. -/
inductive Json where
  | null
  | bool (b : Bool)
  | num (n : Int)
  | str (s : String)
  | arr (elems : List Json)
  | obj (fields : List (String × Json))

/-- Go `encoding/json` string escaping (with the default HTML escaping):
quote, backslash, the HTML characters and control characters are escaped. -/
def escapeChar (c : Char) : List Char :=
  if c = '"' then ['\\', '"']
  else if c = '\\' then ['\\', '\\']
  else if c = '\n' then ['\\', 'n']
  else if c = '\r' then ['\\', 'r']
  else if c = '\t' then ['\\', 't']
  else if c = '<' then ['\\', 'u', '0', '0', '3', 'c']
  else if c = '>' then ['\\', 'u', '0', '0', '3', 'e']
  else if c = '&' then ['\\', 'u', '0', '0', '2', '6']
  else if c.toNat < 32 then
    ['\\', 'u', '0', '0', hexDigitChar (c.toNat / 16), hexDigitChar (c.toNat % 16)]
  else [c]

/-- A JSON string literal as `json.Marshal` emits it. -/
def quoteString (s : String) : String :=
  "\"" ++ String.mk (s.data.map escapeChar).flatten ++ "\""

mutual

/-- Serialization of a JSON value, matching Go's `json.Marshal` output
(no whitespace, fields in struct order). -/
def Json.render : Json → String
  | .null => "null"
  | .bool true => "true"
  | .bool false => "false"
  | .num n => toString n
  | .str s => quoteString s
  | .arr xs => "[" ++ Json.renderArr xs ++ "]"
  | .obj fs => "\x7b" ++ Json.renderObj fs ++ "\x7d"

/-- Comma-separated serialization of array elements. -/
def Json.renderArr : List Json → String
  | [] => ""
  | [x] => x.render
  | x :: y :: xs => x.render ++ "," ++ Json.renderArr (y :: xs)

/-- Comma-separated serialization of object fields. -/
def Json.renderObj : List (String × Json) → String
  | [] => ""
  | [(k, v)] => quoteString k ++ ":" ++ v.render
  | (k, v) :: f :: fs => quoteString k ++ ":" ++ v.render ++ "," ++ Json.renderObj (f :: fs)

end

/-! ## Go errors (model of `error` values and the exported sentinels) -/

/-- A Go error value.  `allocId` models the allocation: Go's `==` on two
`errors.New` results (or on values produced by wrapping) is pointer identity,
so two distinct allocations are never `==` even with equal messages.
`wrap` models `fmt.Errorf("...: %w", err)`. -/
inductive GoErr where
  | base (allocId : Nat) (msg : String)
  | wrap (allocId : Nat) (msg : String) (inner : GoErr)
deriving DecidableEq, Repr

/-- `NotFound` sentinel from `errors.go`: `errors.New("Not found")`. -/
def NotFound : GoErr := .base 0 "Not found"

/-- `BadRequest` sentinel from `errors.go`: `errors.New("Bad request")`. -/
def BadRequest : GoErr := .base 1 "Bad request"

/-! ## Responses -/

/-- The observable part of an HTTP response produced by the handlers:
status, body, and the three headers the dispatch handler sets.
`none` models an absent header.  `fiber`'s `SendStatus` is modelled as the
given status with an empty body and no headers. -/
structure Resp where
  status : Nat
  body : String
  contentType : Option String
  cacheControl : Option String
  eTag : Option String
deriving DecidableEq, Repr

/-- Model of fiber's `utils.StatusMessage`: the default reason phrase of a
status code, for the codes this development touches (fiber returns the empty
string for a code outside its table). -/
def statusMessage (code : Nat) : String :=
  if code = 301 then "Moved Permanently"
  else if code = 304 then "Not Modified"
  else if code = 400 then "Bad Request"
  else if code = 401 then "Unauthorized"
  else if code = 403 then "Forbidden"
  else if code = 404 then "Not Found"
  else if code = 500 then "Internal Server Error"
  else if code = 502 then "Bad Gateway"
  else if code = 503 then "Service Unavailable"
  else ""

/-- Model of `c.SendStatus(code)` in fiber v2: sets the status and — the
response body being empty at that point — the default status message as the
body.  For statuses that must not carry a body (1xx, 204, 304) fasthttp
strips the body on the wire, so the observable body is empty. -/
def sendStatus (code : Nat) : Resp :=
  { status := code,
    body :=
      if code = 304 ∨ code = 204 ∨ (100 ≤ code ∧ code < 200) then ""
      else statusMessage code,
    contentType := none, cacheControl := none, eTag := none }

/-- MIME type constant `fiber.MIMEApplicationJSON`. -/
def mimeApplicationJSON : String := "application/json"

/-! ## User data -/

/-- The `interface{}` value passed as user data to handlers and callbacks:
`absent` is the nil interface, `rawStr` a plain string (no user-data type
registered), `obj` a pointer to a decoded value of the registered type. -/
inductive UserDataVal where
  | absent
  | rawStr (s : String)
  | obj (j : Json)

/-- Model of `decodeUserData` (`handlers.go`): if Base64 is configured, one
trailing `=` is removed (`strings.TrimSuffix(data, "=")`) and the result is
decoded with the URL-safe no-padding alphabet; otherwise the token is
percent-unescaped.  The resulting bytes are then unmarshalled into the
registered type (modelled by the `unmarshal` parameter, standing for
`json.Unmarshal` into `reflect.New(t)`).  `none` models a non-nil error. -/
def decodeUserData (data : String) (userDataIsBase64 : Bool)
    (unmarshal : List Nat → Option Json) : Option Json :=
  let decoded : Option (List Nat) :=
    if userDataIsBase64 then b64DecodeNoPad (trimOneEq data.data)
    else (pathUnescapeChars data.data).map (List.map Char.toNat)
  match decoded with
  | none => none
  | some bytes => unmarshal bytes

/-! ## The common catalog/stream dispatch handler (`createHandler`) -/

/-- Static configuration of a dispatch handler, as captured by the closure
returned by `createHandler`.  `unmarshal` models `json.Unmarshal` into the
registered user-data type; `hash` models `xxhash.Sum64` on the serialized
body (the dispatch logic depends only on its output). -/
structure HandlerCfg where
  jsonArrayKey : String
  cacheAgeNs : Nat
  cachePublic : Bool
  handleEtag : Bool
  userDataRegistered : Bool
  userDataIsBase64 : Bool
  unmarshal : List Nat → Option Json
  hash : String → Nat

/-- The ETag precondition `NewAddon` enforces at construction (`addon.go`:
`opts.HandleEtagCatalogs && opts.CacheAgeCatalogs == 0` — and likewise for
streams — is rejected with "ETag handling only makes sense when also setting
a cache age"): a configuration with ETag handling enabled and a zero cache
age never reaches the request handlers. -/
def newAddonEtagPrecondition (handleEtag : Bool) (cacheAgeNs : Nat) : Bool :=
  !(handleEtag && cacheAgeNs == 0)

/-- A catalog/stream handler: from unescaped media ID and user data to either
an error or a result list.  `none` as the result models a nil slice
(`[]MetaPreviewItem(nil)` / `[]StreamItem(nil)`), which `json.Marshal`
serializes as `null`. -/
def GoHandler := String → UserDataVal → Except GoErr (Option (List Json))

/-- The request data the dispatch handler reads: the raw `type`, `id` and
`userData` route parameters and the `If-None-Match` header. -/
structure Req where
  rtype : String
  rid : String
  userData : String
  ifNoneMatch : String

/-- Model of the `cacheHeaderVal` computation in `createHandler`: empty when
the cache age is zero, otherwise `max-age=` with the age rounded to whole
seconds, plus `, public` or `, private`.  (Go rounds via `math.Round` on
`cacheAge.Seconds()`; here the rounding is done on the nanosecond count.) -/
def cacheHeaderVal (cacheAgeNs : Nat) (cachePublic : Bool) : String :=
  if cacheAgeNs = 0 then ""
  else "max-age=" ++ toString ((cacheAgeNs + 500000000) / 1000000000) ++
    (if cachePublic then ", public" else ", private")

/-- Model of `json.Marshal(res)` for a handler result: a nil slice serializes
as `null`, a non-nil slice as a JSON array. -/
def marshalRes : Option (List Json) → String
  | none => "null"
  | some xs => (Json.arr xs).render

/-- The user-data resolution step of `createHandler` (lines 164-176): with no
registered type the raw route parameter is passed through as a string; with a
registered type an empty token is the nil sentinel and a non-empty token is
decoded.  `none` models the 400 path. -/
def resolveUserData (cfg : HandlerCfg) (userDataString : String) : Option UserDataVal :=
  if ¬ cfg.userDataRegistered then some (.rawStr userDataString)
  else if userDataString = "" then some .absent
  else
    match decodeUserData userDataString cfg.userDataIsBase64 cfg.unmarshal with
    | some j => some (.obj j)
    | none => none

/-- The status mapping of `createHandler` for a handler-returned error:
`switch err { case NotFound: 404; case BadRequest: 400; default: 500 }`,
where `case` comparison is Go `==` (identity). -/
def handlerErrStatus (e : GoErr) : Nat :=
  if e = NotFound then 404
  else if e = BadRequest then 400
  else 500

/-- Model of the request handler returned by `createHandler` (`handlers.go`,
lines 144-238): percent-unescape the ID (failure → 400), look up the
per-type handler (absence → 404), resolve user data (failure → 400), run the
handler (error → mapped status), serialize, handle ETag/If-None-Match
(possibly 304 with Cache-Control and ETag headers), wrap in the
resource-specific JSON envelope, and respond 200 with Content-Type and, when
a cache header value is configured, Cache-Control (and ETag when enabled). -/
def createHandlerModel (cfg : HandlerCfg) (handlers : String → Option GoHandler)
    (req : Req) : Resp :=
  match pathUnescape req.rid with
  | none => sendStatus 400
  | some requestedID =>
    match handlers req.rtype with
    | none => sendStatus 404
    | some h =>
      match resolveUserData cfg req.userData with
      | none => sendStatus 400
      | some userData =>
        match h requestedID userData with
        | .error e => sendStatus (handlerErrStatus e)
        | .ok res =>
          let resBody := marshalRes res
          let cacheVal := cacheHeaderVal cfg.cacheAgeNs cfg.cachePublic
          let eTag := toHex (cfg.hash resBody)
          if cfg.handleEtag ∧ (req.ifNoneMatch = "*" ∨ req.ifNoneMatch = eTag) then
            { status := 304, body := "", contentType := none,
              cacheControl := some cacheVal, eTag := some eTag }
          else
            let body :=
              if cfg.jsonArrayKey ≠ "" then
                "\x7b\"" ++ cfg.jsonArrayKey ++ "\":" ++ resBody ++ "\x7d"
              else resBody
            { status := 200, body := body, contentType := some mimeApplicationJSON,
              cacheControl := if cacheVal ≠ "" then some cacheVal else none,
              eTag := if cacheVal ≠ "" ∧ cfg.handleEtag then some eTag else none }

/-! ## The manifest data model (`types.go`)

Go slices are `Option (GoSlice α)`: `none` is a nil slice; a non-nil slice
records an allocation identifier together with its elements, so that the
freshness of the allocations `clone` performs (`make(...)`) is expressible. -/

/-- A non-nil Go slice: an allocation identifier plus its elements. -/
structure GoSlice (α : Type) where
  allocId : Nat
  data : List α
deriving DecidableEq, Repr

/-- `ExtraItem` from `types.go`. -/
structure ExtraItem where
  name : String
  isRequired : Bool
  options : Option (GoSlice String)
  optionsLimit : Int
deriving DecidableEq, Repr

/-- `CatalogItem` from `types.go`. -/
structure CatalogItem where
  type : String
  id : String
  name : String
  extra : Option (GoSlice ExtraItem)
deriving DecidableEq, Repr

/-- `ResourceItem` from `types.go`. -/
structure ResourceItem where
  name : String
  types : Option (GoSlice String)
  idPrefixes : Option (GoSlice String)
deriving DecidableEq, Repr

/-- `BehaviorHints` from `types.go`. -/
structure BehaviorHints where
  adult : Bool
  p2p : Bool
  configurable : Bool
  configurationRequired : Bool
deriving DecidableEq, Repr

/-- `Manifest` from `types.go`. -/
structure Manifest where
  id : String
  name : String
  description : String
  version : String
  resourceItems : Option (GoSlice ResourceItem)
  types : Option (GoSlice String)
  catalogs : Option (GoSlice CatalogItem)
  idPrefixes : Option (GoSlice String)
  background : String
  logo : String
  contactEmail : String
  behaviorHints : BehaviorHints
deriving DecidableEq, Repr

/-! ### `clone`

Each `clone` method in `types.go` follows the same pattern per slice field:
`nil` stays `nil`, otherwise a new slice is `make`d and the elements copied
(recursively cloned for element types that have their own `clone`).  The
allocation counter threads through and supplies fresh `allocId`s, modelling
the fact that each `make` yields a new allocation. -/

/-- Copy a list, cloning each element and threading the allocation counter. -/
def cloneListCtr {α : Type} (f : α → Nat → α × Nat) : List α → Nat → List α × Nat
  | [], c => ([], c)
  | a :: as, c =>
    ((f a c).1 :: (cloneListCtr f as (f a c).2).1, (cloneListCtr f as (f a c).2).2)

/-- The per-slice-field pattern of the `clone` methods: a nil slice stays
nil, a non-nil slice becomes a fresh allocation (identifier `c`, the `make`)
with each element cloned. -/
def cloneSliceCtr {α : Type} (f : α → Nat → α × Nat)
    (s : Option (GoSlice α)) (c : Nat) : Option (GoSlice α) × Nat :=
  match s with
  | none => (none, c)
  | some sl =>
    (some ⟨c, (cloneListCtr f sl.data (c + 1)).1⟩, (cloneListCtr f sl.data (c + 1)).2)

/-- Copying a scalar element (strings are immutable in Go): no allocation. -/
def cloneScalar (s : String) (c : Nat) : String × Nat := (s, c)

/-- `ExtraItem.clone` from `types.go`. -/
def ExtraItem.clone (ei : ExtraItem) (c : Nat) : ExtraItem × Nat :=
  ({ name := ei.name, isRequired := ei.isRequired,
     options := (cloneSliceCtr cloneScalar ei.options c).1,
     optionsLimit := ei.optionsLimit },
   (cloneSliceCtr cloneScalar ei.options c).2)

/-- `CatalogItem.clone` from `types.go`. -/
def CatalogItem.clone (ci : CatalogItem) (c : Nat) : CatalogItem × Nat :=
  ({ type := ci.type, id := ci.id, name := ci.name,
     extra := (cloneSliceCtr ExtraItem.clone ci.extra c).1 },
   (cloneSliceCtr ExtraItem.clone ci.extra c).2)

/-- `ResourceItem.clone` from `types.go`. -/
def ResourceItem.clone (ri : ResourceItem) (c : Nat) : ResourceItem × Nat :=
  ({ name := ri.name,
     types := (cloneSliceCtr cloneScalar ri.types c).1,
     idPrefixes :=
       (cloneSliceCtr cloneScalar ri.idPrefixes (cloneSliceCtr cloneScalar ri.types c).2).1 },
   (cloneSliceCtr cloneScalar ri.idPrefixes (cloneSliceCtr cloneScalar ri.types c).2).2)

/-- `Manifest.clone` from `types.go`: each slice field is deep-copied in
declaration order (resources, types, catalogs, ID prefixes), scalars and
`behaviorHints` are copied by value. -/
def Manifest.clone (m : Manifest) (c : Nat) : Manifest × Nat :=
  let p1 := cloneSliceCtr ResourceItem.clone m.resourceItems c
  let p2 := cloneSliceCtr cloneScalar m.types p1.2
  let p3 := cloneSliceCtr CatalogItem.clone m.catalogs p2.2
  let p4 := cloneSliceCtr cloneScalar m.idPrefixes p3.2
  ({ id := m.id, name := m.name, description := m.description,
     version := m.version, resourceItems := p1.1, types := p2.1,
     catalogs := p3.1, idPrefixes := p4.1,
     background := m.background, logo := m.logo,
     contactEmail := m.contactEmail, behaviorHints := m.behaviorHints }, p4.2)

/-! ### Value views (allocation identifiers erased)

Two manifests are structurally equal exactly when their value views are
equal: the views keep scalar fields and the nil / non-nil distinction of
every slice but drop the allocation identifiers. -/

/-- Erase a slice to its value view, keeping nil-ness. -/
def eraseSlice {α β : Type} (f : α → β) : Option (GoSlice α) → Option (List β)
  | none => none
  | some s => some (s.data.map f)

/-- Value view of `ExtraItem`. -/
structure ExtraItemVal where
  name : String
  isRequired : Bool
  options : Option (List String)
  optionsLimit : Int
deriving DecidableEq, Repr

/-- Value view of `CatalogItem`. -/
structure CatalogItemVal where
  type : String
  id : String
  name : String
  extra : Option (List ExtraItemVal)
deriving DecidableEq, Repr

/-- Value view of `ResourceItem`. -/
structure ResourceItemVal where
  name : String
  types : Option (List String)
  idPrefixes : Option (List String)
deriving DecidableEq, Repr

/-- Value view of `Manifest`. -/
structure ManifestVal where
  id : String
  name : String
  description : String
  version : String
  resourceItems : Option (List ResourceItemVal)
  types : Option (List String)
  catalogs : Option (List CatalogItemVal)
  idPrefixes : Option (List String)
  background : String
  logo : String
  contactEmail : String
  behaviorHints : BehaviorHints
deriving DecidableEq, Repr

/-- Value view of an `ExtraItem`. -/
def ExtraItem.erase (ei : ExtraItem) : ExtraItemVal :=
  { name := ei.name, isRequired := ei.isRequired,
    options := eraseSlice (fun s => s) ei.options, optionsLimit := ei.optionsLimit }

/-- Value view of a `CatalogItem`. -/
def CatalogItem.erase (ci : CatalogItem) : CatalogItemVal :=
  { type := ci.type, id := ci.id, name := ci.name,
    extra := eraseSlice ExtraItem.erase ci.extra }

/-- Value view of a `ResourceItem`. -/
def ResourceItem.erase (ri : ResourceItem) : ResourceItemVal :=
  { name := ri.name, types := eraseSlice (fun s => s) ri.types,
    idPrefixes := eraseSlice (fun s => s) ri.idPrefixes }

/-- Value view of a `Manifest`. -/
def Manifest.erase (m : Manifest) : ManifestVal :=
  { id := m.id, name := m.name, description := m.description,
    version := m.version,
    resourceItems := eraseSlice ResourceItem.erase m.resourceItems,
    types := eraseSlice (fun s => s) m.types,
    catalogs := eraseSlice CatalogItem.erase m.catalogs,
    idPrefixes := eraseSlice (fun s => s) m.idPrefixes,
    background := m.background, logo := m.logo,
    contactEmail := m.contactEmail, behaviorHints := m.behaviorHints }

/-! ### Allocation identifiers and mutation

`ids` collects every slice allocation identifier nested in a value.
The `set…` functions model mutating, in place, the contents of the slice
with a given allocation identifier (writes through a Go slice header reach
every alias of the same allocation and nothing else). -/

/-- Allocation identifiers of a slice and (via `f`) of its elements. -/
def sliceIds {α : Type} (f : α → List Nat) : Option (GoSlice α) → List Nat
  | none => []
  | some s => s.allocId :: (s.data.map f).flatten

/-- No nested allocations (scalar elements). -/
def noIds (_ : String) : List Nat := []

/-- Allocation identifiers nested in an `ExtraItem`. -/
def ExtraItem.ids (ei : ExtraItem) : List Nat :=
  sliceIds noIds ei.options

/-- Allocation identifiers nested in a `CatalogItem`. -/
def CatalogItem.ids (ci : CatalogItem) : List Nat :=
  sliceIds ExtraItem.ids ci.extra

/-- Allocation identifiers nested in a `ResourceItem`. -/
def ResourceItem.ids (ri : ResourceItem) : List Nat :=
  sliceIds noIds ri.types ++ sliceIds noIds ri.idPrefixes

/-- Allocation identifiers nested in a `Manifest`. -/
def Manifest.ids (m : Manifest) : List Nat :=
  sliceIds ResourceItem.ids m.resourceItems ++ sliceIds noIds m.types ++
    sliceIds CatalogItem.ids m.catalogs ++ sliceIds noIds m.idPrefixes

/-- Overwrite the contents of a slice when it is the allocation `i`. -/
def setSliceIf {α : Type} (i : Nat) (xs : List α) :
    Option (GoSlice α) → Option (GoSlice α)
  | none => none
  | some s => if s.allocId = i then some ⟨s.allocId, xs⟩ else some s

/-- Apply a mutation to every element of a slice (the slice itself keeps its
allocation). -/
def mapSliceElems {α : Type} (f : α → α) :
    Option (GoSlice α) → Option (GoSlice α)
  | none => none
  | some s => some ⟨s.allocId, s.data.map f⟩

/-- Mutate the string-slice allocation `i` inside an `ExtraItem`. -/
def ExtraItem.setStr (i : Nat) (xs : List String) (ei : ExtraItem) : ExtraItem :=
  { ei with options := setSliceIf i xs ei.options }

/-- Mutate the string-slice allocation `i` inside a `CatalogItem`. -/
def CatalogItem.setStr (i : Nat) (xs : List String) (ci : CatalogItem) : CatalogItem :=
  { ci with extra := mapSliceElems (ExtraItem.setStr i xs) ci.extra }

/-- Mutate the string-slice allocation `i` inside a `ResourceItem`. -/
def ResourceItem.setStr (i : Nat) (xs : List String) (ri : ResourceItem) : ResourceItem :=
  { ri with types := setSliceIf i xs ri.types,
            idPrefixes := setSliceIf i xs ri.idPrefixes }

/-- Mutate the string-slice allocation `i` anywhere inside a `Manifest`
(types, ID prefixes, resource items' types / prefixes, extras' options). -/
def Manifest.setStr (i : Nat) (xs : List String) (m : Manifest) : Manifest :=
  { m with resourceItems := mapSliceElems (ResourceItem.setStr i xs) m.resourceItems,
           types := setSliceIf i xs m.types,
           catalogs := mapSliceElems (CatalogItem.setStr i xs) m.catalogs,
           idPrefixes := setSliceIf i xs m.idPrefixes }

/-- Mutate the extra-item-slice allocation `i` inside a `CatalogItem`. -/
def CatalogItem.setExtra (i : Nat) (xs : List ExtraItem) (ci : CatalogItem) : CatalogItem :=
  { ci with extra := setSliceIf i xs ci.extra }

/-- Mutate the extra-item-slice allocation `i` anywhere inside a `Manifest`. -/
def Manifest.setExtra (i : Nat) (xs : List ExtraItem) (m : Manifest) : Manifest :=
  { m with catalogs := mapSliceElems (CatalogItem.setExtra i xs) m.catalogs }

/-- Mutate the catalog-slice allocation `i` of a `Manifest`. -/
def Manifest.setCat (i : Nat) (xs : List CatalogItem) (m : Manifest) : Manifest :=
  { m with catalogs := setSliceIf i xs m.catalogs }

/-- Mutate the resource-item-slice allocation `i` of a `Manifest`. -/
def Manifest.setRes (i : Nat) (xs : List ResourceItem) (m : Manifest) : Manifest :=
  { m with resourceItems := setSliceIf i xs m.resourceItems }

/-! ### Manifest serialization (`json.Marshal` with the `types.go` tags) -/

/-- Serialization of a slice field without `omitempty`: a nil slice is
`null`, a non-nil slice is an array. -/
def sliceJson {α : Type} (f : α → Json) : Option (GoSlice α) → Json
  | none => .null
  | some s => .arr (s.data.map f)

/-- Serialization of a slice field with `omitempty`: the field is omitted
when the slice is nil or has length zero. -/
def sliceFieldOmitempty {α : Type} (key : String) (f : α → Json) :
    Option (GoSlice α) → List (String × Json)
  | none => []
  | some s => if s.data.isEmpty then [] else [(key, .arr (s.data.map f))]

/-- A string field with `omitempty`: omitted when empty. -/
def strFieldOmitempty (key : String) (s : String) : List (String × Json) :=
  if s = "" then [] else [(key, .str s)]

/-- A bool field with `omitempty`: omitted when false. -/
def boolFieldOmitempty (key : String) (b : Bool) : List (String × Json) :=
  if b then [(key, .bool true)] else []

/-- An int field with `omitempty`: omitted when zero. -/
def intFieldOmitempty (key : String) (n : Int) : List (String × Json) :=
  if n = 0 then [] else [(key, .num n)]

/-- JSON value of a `BehaviorHints` (all fields `omitempty`).  As a struct
field of `Manifest` it is always emitted: Go's `omitempty` never omits
struct values. -/
def BehaviorHints.toJson (bh : BehaviorHints) : Json :=
  .obj (boolFieldOmitempty "adult" bh.adult ++
    boolFieldOmitempty "p2p" bh.p2p ++
    boolFieldOmitempty "configurable" bh.configurable ++
    boolFieldOmitempty "configurationRequired" bh.configurationRequired)

/-- JSON value of an `ExtraItem` per its struct tags. -/
def ExtraItem.toJson (ei : ExtraItem) : Json :=
  .obj ([("name", .str ei.name)] ++
    boolFieldOmitempty "isRequired" ei.isRequired ++
    sliceFieldOmitempty "options" Json.str ei.options ++
    intFieldOmitempty "optionsLimit" ei.optionsLimit)

/-- JSON value of a `CatalogItem` per its struct tags. -/
def CatalogItem.toJson (ci : CatalogItem) : Json :=
  .obj ([("type", .str ci.type), ("id", .str ci.id), ("name", .str ci.name)] ++
    sliceFieldOmitempty "extra" ExtraItem.toJson ci.extra)

/-- JSON value of a `ResourceItem` per its struct tags (`types` has no
`omitempty`). -/
def ResourceItem.toJson (ri : ResourceItem) : Json :=
  .obj ([("name", .str ri.name), ("types", sliceJson Json.str ri.types)] ++
    sliceFieldOmitempty "idPrefixes" Json.str ri.idPrefixes)

/-- JSON value of a `Manifest` per its struct tags: `resources` and
`idPrefixes` are `omitempty`; `types` and `catalogs` are always emitted
(`null` when nil); `behaviorHints` is always emitted. -/
def Manifest.toJson (m : Manifest) : Json :=
  .obj ([("id", .str m.id), ("name", .str m.name),
      ("description", .str m.description), ("version", .str m.version)] ++
    sliceFieldOmitempty "resources" ResourceItem.toJson m.resourceItems ++
    [("types", sliceJson Json.str m.types),
     ("catalogs", sliceJson CatalogItem.toJson m.catalogs)] ++
    sliceFieldOmitempty "idPrefixes" Json.str m.idPrefixes ++
    strFieldOmitempty "background" m.background ++
    strFieldOmitempty "logo" m.logo ++
    strFieldOmitempty "contactEmail" m.contactEmail ++
    [("behaviorHints", m.behaviorHints.toJson)])

/-- Model of `json.Marshal(manifest)`. -/
def marshalManifest (m : Manifest) : String :=
  m.toJson.render

/-! ## The manifest handler (`createManifestHandler`) -/

/-- A `Manifest` with `BehaviorHints.ConfigurationRequired` set to `false`
(the mutation `createManifestHandler` applies). -/
def Manifest.withConfigurationNotRequired (m : Manifest) : Manifest :=
  { m with behaviorHints := { m.behaviorHints with configurationRequired := false } }

/-- A manifest callback (`ManifestCallback` in `addon.go`): receives the
cloned manifest (by pointer: it may mutate it) and the user data, returns a
status.  Modelled as returning the status together with the mutated
manifest. -/
def ManifestCallbackModel := Manifest → UserDataVal → Nat × Manifest

/-- User-data configuration of the manifest handler (subset of `HandlerCfg`
relevant to it). -/
structure ManifestHCfg where
  userDataRegistered : Bool
  userDataIsBase64 : Bool
  unmarshal : List Nat → Option Json

/-- The user-data resolution step of `createManifestHandler` (`handlers.go`
lines 53-72), mirroring its own branch order: an empty token gives an empty
string (no registered type) or the nil sentinel (registered type); a
non-empty token is passed through raw (no registered type) or decoded
(registered type, `none` modelling the 400 path). -/
def manifestResolveUserData (cfg : ManifestHCfg) (userDataString : String) :
    Option UserDataVal :=
  if userDataString = "" then
    some (if ¬ cfg.userDataRegistered then .rawStr "" else .absent)
  else if ¬ cfg.userDataRegistered then some (.rawStr userDataString)
  else
    match decodeUserData userDataString cfg.userDataIsBase64 cfg.unmarshal with
    | some j => some (.obj j)
    | none => none

/-- Model of the handler returned by `createManifestHandler` (`handlers.go`
lines 33-101).  The two bodies marshalled before the closure is returned
(`manifestBody` and `configuredManifestBody`, the latter from a copy with
`ConfigurationRequired` forced to `false`) serve the no-callback paths; with
a callback, the callback runs on a clone of the manifest, may short-circuit
with a status ≥ 400, and on the user-data path `ConfigurationRequired` is
forced to `false` *after* the callback returns. -/
def manifestHandlerModel (manifest : Manifest) (cb : Option ManifestCallbackModel)
    (cfg : ManifestHCfg) (userDataString : String) : Resp :=
  let manifestBody := marshalManifest manifest
  let configuredManifestBody := marshalManifest manifest.withConfigurationNotRequired
  let configured := userDataString ≠ ""
  match manifestResolveUserData cfg userDataString with
  | none => sendStatus 400
  | some userData =>
    match cb with
    | some callback =>
      let manifestClone := (manifest.clone 0).1
      let (status, mutated) := callback manifestClone userData
      if 400 ≤ status then sendStatus status
      else
        let outgoing :=
          if configured then mutated.withConfigurationNotRequired else mutated
        { status := 200, body := marshalManifest outgoing,
          contentType := some mimeApplicationJSON,
          cacheControl := none, eTag := none }
    | none =>
      if configured then
        { status := 200, body := configuredManifestBody,
          contentType := some mimeApplicationJSON,
          cacheControl := none, eTag := none }
      else
        { status := 200, body := manifestBody,
          contentType := some mimeApplicationJSON,
          cacheControl := none, eTag := none }

/-! ## Concrete fixtures used in witnesses and counterexamples -/

/-- An unmarshal model accepting exactly the bytes of `{}` (the empty JSON
object) and producing the empty object value. -/
def unmarshalEmptyObj (bs : List Nat) : Option Json :=
  if bs = strBytes "\x7b\x7d" then some (.obj []) else none

/-- A baseline dispatch configuration: catalog envelope key, no caching, no
ETag handling, no registered user-data type. -/
def cfgBase : HandlerCfg :=
  { jsonArrayKey := "metas", cacheAgeNs := 0, cachePublic := false,
    handleEtag := false, userDataRegistered := false, userDataIsBase64 := false,
    unmarshal := fun _ => none, hash := fun _ => 0 }

/-- A handler table with a single registered media type, `movie`. -/
def movieOnly (h : GoHandler) : String → Option GoHandler :=
  fun t => if t = "movie" then some h else none

/-- A handler that succeeds with a nil result slice. -/
def hNil : GoHandler := fun _ _ => .ok none

/-- A handler that succeeds with an empty (non-nil) result slice. -/
def hEmpty : GoHandler := fun _ _ => .ok (some [])

/-- A handler that fails with the given error. -/
def hErr (e : GoErr) : GoHandler := fun _ _ => .error e

/-- A dispatch configuration with ETag handling enabled (and no caching);
the hash models `xxhash.Sum64` abstractly as the body length. -/
def cfgEtag : HandlerCfg :=
  { cfgBase with handleEtag := true, hash := fun s => s.length }

/-- A dispatch configuration with ETag handling and a one-day cache age. -/
def cfgEtagCached : HandlerCfg :=
  { cfgEtag with cacheAgeNs := 86400000000000, cachePublic := true }

/-- A dispatch configuration with a registered Base64-encoded user-data type
that unmarshals exactly the empty JSON object. -/
def cfgReg : HandlerCfg :=
  { cfgBase with userDataRegistered := true, userDataIsBase64 := true, unmarshal := unmarshalEmptyObj }

/-- Manifest-handler configuration with a registered Base64 user-data type. -/
def mcfgReg : ManifestHCfg :=
  { userDataRegistered := true, userDataIsBase64 := true, unmarshal := unmarshalEmptyObj }

/-- Manifest-handler configuration with no registered user-data type. -/
def mcfgNoReg : ManifestHCfg :=
  { userDataRegistered := false, userDataIsBase64 := false, unmarshal := fun _ => none }

/-- A probe handler that reveals which user-data value it received:
`NotFound` for the raw token `a%20b`, `BadRequest` for the percent-decoded
`a b`, an unknown error otherwise. -/
def hProbe : GoHandler := fun _ ud =>
  match ud with
  | .rawStr s =>
    if s = "a%20b" then .error NotFound
    else if s = "a b" then .error BadRequest
    else .error (.base 9 "other")
  | _ => .error (.base 9 "other")

/-- A small manifest with `configurationRequired` declared `true`. -/
def mFixture : Manifest :=
  { id := "com.example.addon", name := "Example", description := "An example addon",
    version := "1.0.0", resourceItems := none, types := some ⟨10, ["movie"]⟩,
    catalogs := none, idPrefixes := none, background := "", logo := "",
    contactEmail := "",
    behaviorHints := { adult := false, p2p := false, configurable := true,
                       configurationRequired := true } }

/-- A fully populated manifest exercising every nested sequence field. -/
def mFull : Manifest :=
  { id := "com.example.full", name := "Full", description := "Fully populated",
    version := "2.0.0",
    resourceItems := some ⟨1, [{ name := "stream", types := some ⟨2, ["movie", "series"]⟩,
                                 idPrefixes := some ⟨3, ["tt"]⟩ }]⟩,
    types := some ⟨4, ["movie", "series"]⟩,
    catalogs := some ⟨5, [{ type := "movie", id := "best", name := "Best",
                            extra := some ⟨6, [{ name := "genre", isRequired := true,
                                                 options := some ⟨7, ["action", "drama"]⟩,
                                                 optionsLimit := 1 }]⟩ }]⟩,
    idPrefixes := some ⟨8, ["tt", "kitsu"]⟩,
    background := "https://example.com/bg.png", logo := "https://example.com/logo.png",
    contactEmail := "hi@example.com",
    behaviorHints := { adult := false, p2p := true, configurable := true,
                       configurationRequired := true } }

/-! # Theorems -/

/-! ## Shared helper lemmas -/

theorem marshalRes_nil : marshalRes none = "null" := rfl

theorem hexCharsAux_ne_nil (fuel n : Nat) : hexCharsAux (fuel + 1) n ≠ [] := by
  rw [hexCharsAux]
  split
  · simp
  · simp

theorem toHex_ne_empty (n : Nat) : toHex n ≠ "" := by
  intro h
  have := congrArg String.data h
  simp only [toHex] at this
  exact hexCharsAux_ne_nil n n this

theorem cacheHeaderVal_ne_empty (ns : Nat) (pub : Bool) (h : ns ≠ 0) :
    cacheHeaderVal ns pub ≠ "" := by
  intro hEq
  rw [cacheHeaderVal, if_neg h] at hEq
  have hl := congrArg String.length hEq
  rw [String.length_append, String.length_append] at hl
  have h8 : "max-age=".length = 8 := rfl
  have h0 : ("" : String).length = 0 := rfl
  rw [h8, h0] at hl
  omega

/-! ## C6: response to a media ID that fails percent-unescaping -/

/-- C6 (corrected): for every catalog or stream request whose media-ID path
parameter fails percent-unescaping, the dispatch handler responds with
HTTP 400 (Bad Request) — a client error — not 500 as the claim states. -/
theorem dispatch_unescape_failure_is_400
    (cfg : HandlerCfg) (handlers : String → Option GoHandler) (req : Req)
    (hUn : pathUnescape req.rid = none) :
    createHandlerModel cfg handlers req = sendStatus 400 := by
  simp only [createHandlerModel, hUn]

/-- Witness for C6's theorem at a concrete malformed ID. -/
theorem dispatch_unescape_failure_is_400_witness :
    pathUnescape "%zz" = none ∧
    createHandlerModel cfgBase (movieOnly hNil)
      { rtype := "movie", rid := "%zz", userData := "", ifNoneMatch := "" } =
      sendStatus 400 :=
  ⟨by decide,
   dispatch_unescape_failure_is_400 cfgBase (movieOnly hNil)
     { rtype := "movie", rid := "%zz", userData := "", ifNoneMatch := "" } (by decide)⟩

/-- Counterexample to C6 as stated: at a concrete request whose ID fails
unescaping, the status is 400, not the claimed 500. -/
theorem dispatch_unescape_failure_not_500 :
    pathUnescape "%zz" = none ∧
    (createHandlerModel cfgBase (movieOnly hNil)
      { rtype := "movie", rid := "%zz", userData := "", ifNoneMatch := "" }).status = 400 ∧
    (createHandlerModel cfgBase (movieOnly hNil)
      { rtype := "movie", rid := "%zz", userData := "", ifNoneMatch := "" }).status ≠ 500 := by
  refine ⟨by decide, rfl, by decide⟩

/-! ## C9: error classification is by identity, not by message -/

/-- C9 (confirmed): the dispatch classifies a handler-returned error by
identity comparison with the `NotFound` / `BadRequest` sentinels; a wrapped
sentinel or a distinct error with an equal message maps to 500. -/
theorem dispatch_error_by_identity
    (cfg : HandlerCfg) (handlers : String → Option GoHandler) (req : Req)
    (h : GoHandler) (rid' : String) (ud : UserDataVal)
    (hUn : pathUnescape req.rid = some rid')
    (hH : handlers req.rtype = some h)
    (hUD : resolveUserData cfg req.userData = some ud) :
    (∀ e, h rid' ud = .error e →
      createHandlerModel cfg handlers req = sendStatus (handlerErrStatus e)) ∧
    handlerErrStatus NotFound = 404 ∧
    handlerErrStatus BadRequest = 400 ∧
    (∀ i s inner, handlerErrStatus (.wrap i s inner) = 500) ∧
    (∀ i s, i ≠ 0 → i ≠ 1 → handlerErrStatus (.base i s) = 500) := by
  refine ⟨?_, rfl, rfl, ?_, ?_⟩
  · intro e he
    simp only [createHandlerModel, hUn, hH, hUD, he]
  · intro i s inner
    simp [handlerErrStatus, NotFound, BadRequest]
  · intro i s hi0 hi1
    simp [handlerErrStatus, NotFound, BadRequest, hi0, hi1]

/-- Witness for C9's theorem: a fresh error sharing `NotFound`'s message and
a wrapper around `NotFound` itself both map to 500, while the sentinels map
to 404/400. -/
theorem dispatch_error_by_identity_witness :
    createHandlerModel cfgBase (movieOnly (hErr (GoErr.base 2 "Not found")))
      { rtype := "movie", rid := "tt1", userData := "", ifNoneMatch := "" } =
      sendStatus 500 ∧
    handlerErrStatus (GoErr.base 2 "Not found") = 500 ∧
    handlerErrStatus (GoErr.wrap 7 "context: Not found" NotFound) = 500 ∧
    handlerErrStatus NotFound = 404 ∧
    handlerErrStatus BadRequest = 400 := by
  have h := dispatch_error_by_identity cfgBase
    (movieOnly (hErr (GoErr.base 2 "Not found")))
    { rtype := "movie", rid := "tt1", userData := "", ifNoneMatch := "" }
    (hErr (GoErr.base 2 "Not found")) "tt1" (.rawStr "") rfl rfl rfl
  refine ⟨?_, h.2.2.2.2 2 "Not found" (by decide) (by decide),
    h.2.2.2.1 7 "context: Not found" NotFound, h.2.1, h.2.2.1⟩
  have h1 := h.1 (GoErr.base 2 "Not found") rfl
  rw [h1]
  rfl

/-! ## C1: dispatch status mapping -/

/-- C1 (amended): for a request with registered handler and successfully
resolved user data, `NotFound` maps to exactly 404, `BadRequest` to exactly
400 and any other error to exactly 500 — each carrying fiber's generic
status-message body (`Not Found`, `Bad Request`, `Internal Server Error`),
never an empty or handler-controlled body; a successful result — provided
ETag handling is off or the `If-None-Match` header matches neither `*` nor
the computed ETag — yields 200 with the serialized result wrapped under the
resource-specific JSON key. -/
theorem dispatch_status_mapping
    (cfg : HandlerCfg) (handlers : String → Option GoHandler) (req : Req)
    (h : GoHandler) (rid' : String) (ud : UserDataVal)
    (hUn : pathUnescape req.rid = some rid')
    (hH : handlers req.rtype = some h)
    (hUD : resolveUserData cfg req.userData = some ud) :
    (h rid' ud = .error NotFound → createHandlerModel cfg handlers req = sendStatus 404) ∧
    (h rid' ud = .error BadRequest → createHandlerModel cfg handlers req = sendStatus 400) ∧
    (∀ e, e ≠ NotFound → e ≠ BadRequest → h rid' ud = .error e →
      createHandlerModel cfg handlers req = sendStatus 500) ∧
    (∀ res, h rid' ud = .ok res →
      (cfg.handleEtag = false ∨
        (req.ifNoneMatch ≠ "*" ∧ req.ifNoneMatch ≠ toHex (cfg.hash (marshalRes res)))) →
      cfg.jsonArrayKey ≠ "" →
      (createHandlerModel cfg handlers req).status = 200 ∧
      (createHandlerModel cfg handlers req).body =
        "\x7b\"" ++ cfg.jsonArrayKey ++ "\":" ++ marshalRes res ++ "\x7d") := by
  refine ⟨?_, ?_, ?_, ?_⟩
  · intro he
    simp [createHandlerModel, hUn, hH, hUD, he, handlerErrStatus]
  · intro he
    simp [createHandlerModel, hUn, hH, hUD, he, handlerErrStatus, NotFound, BadRequest]
  · intro e he1 he2 he
    simp [createHandlerModel, hUn, hH, hUD, he, handlerErrStatus, he1, he2]
  · intro res hres hcond hkey
    have hnm : ¬ (cfg.handleEtag = true ∧
        (req.ifNoneMatch = "*" ∨ req.ifNoneMatch = toHex (cfg.hash (marshalRes res)))) := by
      rcases hcond with hE | ⟨hs, he⟩
      · simp [hE]
      · simp [hs, he]
    simp only [createHandlerModel, hUn, hH, hUD, hres]
    rw [if_neg hnm]
    simp [hkey]

/-- Witness for C1's amended theorem at a concrete catalog request. -/
theorem dispatch_status_mapping_witness :
    (createHandlerModel cfgBase (movieOnly hEmpty)
      { rtype := "movie", rid := "tt1", userData := "", ifNoneMatch := "" }).status = 200 ∧
    (createHandlerModel cfgBase (movieOnly hEmpty)
      { rtype := "movie", rid := "tt1", userData := "", ifNoneMatch := "" }).body =
      "\x7b\"metas\":[]\x7d" ∧
    createHandlerModel cfgBase (movieOnly (hErr NotFound))
      { rtype := "movie", rid := "tt1", userData := "", ifNoneMatch := "" } =
      sendStatus 404 := by
  have hOk := dispatch_status_mapping cfgBase (movieOnly hEmpty)
    { rtype := "movie", rid := "tt1", userData := "", ifNoneMatch := "" }
    hEmpty "tt1" (.rawStr "") rfl rfl rfl
  have hNF := dispatch_status_mapping cfgBase (movieOnly (hErr NotFound))
    { rtype := "movie", rid := "tt1", userData := "", ifNoneMatch := "" }
    (hErr NotFound) "tt1" (.rawStr "") rfl rfl rfl
  have h200 := hOk.2.2.2 (some []) rfl (Or.inl rfl) (by decide)
  exact ⟨h200.1, h200.2.trans (by decide), hNF.1 rfl⟩

/-- Counterexample to C1 as stated, on two counts: a 404 from the `NotFound`
sentinel carries fiber's `Not Found` status-message body, not the claimed
empty body; and with ETag handling enabled and `If-None-Match: *`, a
successful handler result yields 304, not 200. -/
theorem dispatch_status_mapping_counterexample :
    (createHandlerModel cfgBase (movieOnly (hErr NotFound))
      { rtype := "movie", rid := "tt1", userData := "", ifNoneMatch := "" }).status = 404 ∧
    (createHandlerModel cfgBase (movieOnly (hErr NotFound))
      { rtype := "movie", rid := "tt1", userData := "", ifNoneMatch := "" }).body =
      "Not Found" ∧
    (createHandlerModel cfgBase (movieOnly (hErr NotFound))
      { rtype := "movie", rid := "tt1", userData := "", ifNoneMatch := "" }).body ≠ "" ∧
    hEmpty "tt1" (.rawStr "") = .ok (some []) ∧
    (createHandlerModel cfgEtag (movieOnly hEmpty)
      { rtype := "movie", rid := "tt1", userData := "", ifNoneMatch := "*" }).status = 304 ∧
    (createHandlerModel cfgEtag (movieOnly hEmpty)
      { rtype := "movie", rid := "tt1", userData := "", ifNoneMatch := "*" }).status ≠ 200 := by
  refine ⟨rfl, rfl, by decide, rfl, rfl, by decide⟩

/-! ## C10: a nil result list serializes as `null` in the envelope -/

/-- C10 (amended): a handler succeeding with a nil result slice yields —
provided ETag handling is off or `If-None-Match` matches neither `*` nor the
computed ETag — a 200 response whose body is exactly `{"metas":null}`
(catalog key) or `{"streams":null}` (stream key): the nil slice serializes
as `null`, not as `[]`. -/
theorem dispatch_nil_result_serializes_null
    (cfg : HandlerCfg) (handlers : String → Option GoHandler) (req : Req)
    (h : GoHandler) (rid' : String) (ud : UserDataVal)
    (hUn : pathUnescape req.rid = some rid')
    (hH : handlers req.rtype = some h)
    (hUD : resolveUserData cfg req.userData = some ud)
    (hres : h rid' ud = .ok none)
    (hcond : cfg.handleEtag = false ∨
      (req.ifNoneMatch ≠ "*" ∧ req.ifNoneMatch ≠ toHex (cfg.hash "null"))) :
    (createHandlerModel cfg handlers req).status = 200 ∧
    (cfg.jsonArrayKey = "metas" →
      (createHandlerModel cfg handlers req).body = "\x7b\"metas\":null\x7d") ∧
    (cfg.jsonArrayKey = "streams" →
      (createHandlerModel cfg handlers req).body = "\x7b\"streams\":null\x7d") := by
  have hnm : ¬ (cfg.handleEtag = true ∧
      (req.ifNoneMatch = "*" ∨ req.ifNoneMatch = toHex (cfg.hash (marshalRes none)))) := by
    rcases hcond with hE | ⟨hs, he⟩
    · simp [hE]
    · simp only [marshalRes]
      simp [hs, he]
  simp only [createHandlerModel, hUn, hH, hUD, hres]
  rw [if_neg hnm]
  refine ⟨by simp, ?_, ?_⟩
  · intro hk
    simp [hk, marshalRes]
  · intro hk
    simp [hk, marshalRes]

/-- Witness for C10's amended theorem at a concrete request. -/
theorem dispatch_nil_result_serializes_null_witness :
    (createHandlerModel cfgBase (movieOnly hNil)
      { rtype := "movie", rid := "tt1", userData := "", ifNoneMatch := "" }).status = 200 ∧
    (createHandlerModel cfgBase (movieOnly hNil)
      { rtype := "movie", rid := "tt1", userData := "", ifNoneMatch := "" }).body =
      "\x7b\"metas\":null\x7d" := by
  have h := dispatch_nil_result_serializes_null cfgBase (movieOnly hNil)
    { rtype := "movie", rid := "tt1", userData := "", ifNoneMatch := "" }
    hNil "tt1" (.rawStr "") rfl rfl rfl rfl (Or.inl rfl)
  exact ⟨h.1, h.2.1 rfl⟩

/-- Counterexample to C10 as stated: with ETag handling enabled and
`If-None-Match: *`, the nil-result response is 304 with empty body, not 200
with `{"metas":null}`. -/
theorem dispatch_nil_result_counterexample :
    hNil "tt1" (.rawStr "") = .ok none ∧
    (createHandlerModel cfgEtag (movieOnly hNil)
      { rtype := "movie", rid := "tt1", userData := "", ifNoneMatch := "*" }).status = 304 ∧
    (createHandlerModel cfgEtag (movieOnly hNil)
      { rtype := "movie", rid := "tt1", userData := "", ifNoneMatch := "*" }).body ≠
      "\x7b\"metas\":null\x7d" := by
  refine ⟨rfl, rfl, by decide⟩

/-! ## C3: conditional caching (ETag / If-None-Match) -/

/-- C3 (confirmed): with ETag handling enabled — which, by the precondition
`NewAddon` enforces at construction, entails a non-zero cache age — a
request whose `If-None-Match` equals `*` or the computed ETag (hex-formatted
hash of the serialized body) yields 304 with both Cache-Control and ETag
headers; otherwise 200 with the same Cache-Control and ETag header values. -/
theorem dispatch_etag_conditional
    (cfg : HandlerCfg) (handlers : String → Option GoHandler) (req : Req)
    (h : GoHandler) (rid' : String) (ud : UserDataVal) (res : Option (List Json))
    (hUn : pathUnescape req.rid = some rid')
    (hH : handlers req.rtype = some h)
    (hUD : resolveUserData cfg req.userData = some ud)
    (hres : h rid' ud = .ok res)
    (hEtag : cfg.handleEtag = true)
    (hValid : newAddonEtagPrecondition cfg.handleEtag cfg.cacheAgeNs = true) :
    (req.ifNoneMatch = "*" ∨ req.ifNoneMatch = toHex (cfg.hash (marshalRes res)) →
      createHandlerModel cfg handlers req =
        { status := 304, body := "", contentType := none,
          cacheControl := some (cacheHeaderVal cfg.cacheAgeNs cfg.cachePublic),
          eTag := some (toHex (cfg.hash (marshalRes res))) }) ∧
    (req.ifNoneMatch ≠ "*" → req.ifNoneMatch ≠ toHex (cfg.hash (marshalRes res)) →
      (createHandlerModel cfg handlers req).status = 200 ∧
      (createHandlerModel cfg handlers req).cacheControl =
        some (cacheHeaderVal cfg.cacheAgeNs cfg.cachePublic) ∧
      (createHandlerModel cfg handlers req).eTag =
        some (toHex (cfg.hash (marshalRes res)))) := by
  have hAge : cfg.cacheAgeNs ≠ 0 := by
    intro h0
    rw [newAddonEtagPrecondition, hEtag, h0] at hValid
    simp at hValid
  have hne := cacheHeaderVal_ne_empty cfg.cacheAgeNs cfg.cachePublic hAge
  constructor
  · intro hm
    simp only [createHandlerModel, hUn, hH, hUD, hres]
    rw [if_pos ⟨hEtag, hm⟩]
  · intro hs hm
    simp only [createHandlerModel, hUn, hH, hUD, hres]
    rw [if_neg (by simp [hs, hm])]
    refine ⟨by simp, ?_, ?_⟩
    · simp only []
      rw [if_pos hne]
    · simp only []
      rw [if_pos ⟨hne, hEtag⟩]

/-- Witness for C3's theorem: with a one-day public cache age, the
unconditional request gets 200 with Cache-Control and ETag, and the
`If-None-Match: *` request gets 304 with the same header values. -/
theorem dispatch_etag_conditional_witness :
    ((createHandlerModel cfgEtagCached (movieOnly hEmpty)
      { rtype := "movie", rid := "tt1", userData := "", ifNoneMatch := "" }).status = 200 ∧
     (createHandlerModel cfgEtagCached (movieOnly hEmpty)
      { rtype := "movie", rid := "tt1", userData := "", ifNoneMatch := "" }).cacheControl =
       some "max-age=86400, public" ∧
     (createHandlerModel cfgEtagCached (movieOnly hEmpty)
      { rtype := "movie", rid := "tt1", userData := "", ifNoneMatch := "" }).eTag =
       some "2") ∧
    createHandlerModel cfgEtagCached (movieOnly hEmpty)
      { rtype := "movie", rid := "tt1", userData := "", ifNoneMatch := "*" } =
      { status := 304, body := "", contentType := none,
        cacheControl := some "max-age=86400, public", eTag := some "2" } := by
  have h200 := dispatch_etag_conditional cfgEtagCached (movieOnly hEmpty)
    { rtype := "movie", rid := "tt1", userData := "", ifNoneMatch := "" }
    hEmpty "tt1" (.rawStr "") (some []) rfl rfl rfl rfl rfl (by decide)
  have h304 := dispatch_etag_conditional cfgEtagCached (movieOnly hEmpty)
    { rtype := "movie", rid := "tt1", userData := "", ifNoneMatch := "*" }
    hEmpty "tt1" (.rawStr "") (some []) rfl rfl rfl rfl rfl (by decide)
  have hc := h200.2 (by decide) (by decide)
  exact ⟨⟨hc.1, hc.2.1.trans (by decide), hc.2.2.trans (by decide)⟩,
    (h304.1 (Or.inl rfl)).trans (by decide)⟩

/-! ## C7: empty user-data token decodes to the nil sentinel -/

/-- C7 (confirmed): with a registered user-data type, an empty token resolves
to the nil sentinel (not an error) in both the dispatch and the manifest
handler, a successfully decoded token resolves to a decoded-object value, and
the sentinel is distinct from every decoded-object value (in particular from
a decoded empty JSON object). -/
theorem userdata_empty_token_sentinel
    (cfg : HandlerCfg) (mcfg : ManifestHCfg)
    (h1 : cfg.userDataRegistered = true)
    (h2 : mcfg.userDataRegistered = true) :
    resolveUserData cfg "" = some .absent ∧
    manifestResolveUserData mcfg "" = some .absent ∧
    (∀ uds j, decodeUserData uds cfg.userDataIsBase64 cfg.unmarshal = some j →
      uds ≠ "" → resolveUserData cfg uds = some (.obj j)) ∧
    (∀ j : Json, UserDataVal.obj j ≠ .absent) := by
  refine ⟨?_, ?_, ?_, ?_⟩
  · simp [resolveUserData, h1]
  · simp [manifestResolveUserData, h2]
  · intro uds j hd hne
    simp [resolveUserData, h1, hne, hd]
  · intro j
    simp

/-- Witness for C7's theorem: the empty token gives the sentinel while the
token `e30` (Base64URL of `{}`) gives a decoded empty object, distinct from
the sentinel. -/
theorem userdata_empty_token_sentinel_witness :
    resolveUserData cfgReg "" = some .absent ∧
    manifestResolveUserData mcfgReg "" = some .absent ∧
    resolveUserData cfgReg "e30" = some (.obj (.obj [])) ∧
    UserDataVal.obj (.obj []) ≠ .absent := by
  have h := userdata_empty_token_sentinel cfgReg mcfgReg rfl rfl
  exact ⟨h.1, h.2.1, h.2.2.1 "e30" (.obj []) rfl (by decide), h.2.2.2 (.obj [])⟩

/-! ## C8: with no registered type the raw token is passed through -/

/-- C8 (amended): when no user-data type is registered, the value passed to
the catalog/stream handler and to the manifest callback is the raw route
token itself, as it appears in the path — no percent-decoding and no
structural decode is applied. -/
theorem userdata_raw_passthrough
    (cfg : HandlerCfg) (mcfg : ManifestHCfg) (uds : String)
    (h1 : cfg.userDataRegistered = false)
    (h2 : mcfg.userDataRegistered = false) :
    resolveUserData cfg uds = some (.rawStr uds) ∧
    manifestResolveUserData mcfg uds = some (.rawStr uds) := by
  constructor
  · simp [resolveUserData, h1]
  · by_cases he : uds = "" <;> simp [manifestResolveUserData, h2, he]

/-- Witness for C8's amended theorem at the token `a%20b`. -/
theorem userdata_raw_passthrough_witness :
    resolveUserData cfgBase "a%20b" = some (.rawStr "a%20b") ∧
    manifestResolveUserData mcfgNoReg "a%20b" = some (.rawStr "a%20b") :=
  userdata_raw_passthrough cfgBase mcfgNoReg "a%20b" rfl rfl

/-- Counterexample to C8 as stated: the token `a%20b` percent-decodes to
`a b`, but the handler receives the raw `a%20b` (the probe handler returns
`NotFound` only for the raw token, and the dispatch answers 404, not the 400
it would answer had the handler received the decoded string). -/
theorem userdata_raw_passthrough_counterexample :
    pathUnescape "a%20b" = some "a b" ∧
    resolveUserData cfgBase "a%20b" = some (.rawStr "a%20b") ∧
    UserDataVal.rawStr "a%20b" ≠ UserDataVal.rawStr "a b" ∧
    createHandlerModel cfgBase (movieOnly hProbe)
      { rtype := "movie", rid := "tt1", userData := "a%20b", ifNoneMatch := "" } =
      sendStatus 404 := by
  refine ⟨by decide, rfl, ?_, rfl⟩
  intro h
  injection h with h'
  exact absurd h' (by decide)

/-! ## C5: Base64URL user-data round trip and the padding bug -/

theorem chunk3_induction (P : List Nat → Prop) (h0 : P [])
    (h1 : ∀ x, P [x]) (h2 : ∀ x y, P [x, y])
    (h3 : ∀ x y z rest, P rest → P (x :: y :: z :: rest)) :
    ∀ bs, P bs
  | [] => h0
  | [x] => h1 x
  | [x, y] => h2 x y
  | x :: y :: z :: rest =>
    h3 x y z rest (chunk3_induction P h0 h1 h2 h3 rest)

theorem b64Val_b64Chr : ∀ v < 64, b64Val (b64Chr v) = some v := by decide

theorem b64Chr_ne_eq : ∀ v < 64, b64Chr v ≠ '=' := by decide

theorem eq_not_mem_encode : ∀ bs : List Nat, (∀ x ∈ bs, x < 256) →
    '=' ∉ b64EncodeNoPad bs := by
  refine chunk3_induction _ ?_ ?_ ?_ ?_
  · intro _
    simp [b64EncodeNoPad]
  · intro x h
    have hx : x < 256 := h x (by simp)
    have h1 := b64Chr_ne_eq (x / 4) (by omega)
    have h2 := b64Chr_ne_eq (x % 4 * 16) (by omega)
    simp [b64EncodeNoPad]
    exact ⟨Ne.symm h1, Ne.symm h2⟩
  · intro x y h
    have hx : x < 256 := h x (by simp)
    have hy : y < 256 := h y (by simp)
    have h1 := b64Chr_ne_eq (x / 4) (by omega)
    have h2 := b64Chr_ne_eq (x % 4 * 16 + y / 16) (by omega)
    have h3 := b64Chr_ne_eq (y % 16 * 4) (by omega)
    simp [b64EncodeNoPad]
    exact ⟨Ne.symm h1, Ne.symm h2, Ne.symm h3⟩
  · intro x y z rest ih h
    have hx : x < 256 := h x (by simp)
    have hy : y < 256 := h y (by simp)
    have hz : z < 256 := h z (by simp)
    have hrest := ih (fun a ha => h a (by simp [ha]))
    have h1 := b64Chr_ne_eq (x / 4) (by omega)
    have h2 := b64Chr_ne_eq (x % 4 * 16 + y / 16) (by omega)
    have h3 := b64Chr_ne_eq (y % 16 * 4 + z / 64) (by omega)
    have h4 := b64Chr_ne_eq (z % 64) (by omega)
    simp only [b64EncodeNoPad, List.mem_cons, not_or]
    exact ⟨Ne.symm h1, Ne.symm h2, Ne.symm h3, Ne.symm h4, hrest⟩

theorem mem_of_getLast?_eq {α : Type} : ∀ {l : List α} {a : α},
    l.getLast? = some a → a ∈ l
  | [], a, h => by simp [List.getLast?] at h
  | [x], a, h => by
    simp [List.getLast?] at h
    simp [h]
  | x :: y :: l, a, h => by
    rw [List.getLast?_cons_cons] at h
    exact List.mem_cons_of_mem x (mem_of_getLast?_eq h)

theorem trimOneEq_encodeNoPad (bs : List Nat) (h : ∀ x ∈ bs, x < 256) :
    trimOneEq (b64EncodeNoPad bs) = b64EncodeNoPad bs := by
  rw [trimOneEq]
  split
  · next hl => exact absurd (mem_of_getLast?_eq hl) (eq_not_mem_encode bs h)
  · rfl

theorem b64_roundtrip_noPad : ∀ bs : List Nat, (∀ x ∈ bs, x < 256) →
    b64DecodeNoPad (b64EncodeNoPad bs) = some bs := by
  refine chunk3_induction _ ?_ ?_ ?_ ?_
  · intro _
    rfl
  · intro x h
    have hx : x < 256 := h x (by simp)
    have h1 := b64Val_b64Chr (x / 4) (by omega)
    have h2 := b64Val_b64Chr (x % 4 * 16) (by omega)
    simp [b64EncodeNoPad, b64DecodeNoPad, b64Vals, h1, h2, b64DecodeVals]
    omega
  · intro x y h
    have hx : x < 256 := h x (by simp)
    have hy : y < 256 := h y (by simp)
    have h1 := b64Val_b64Chr (x / 4) (by omega)
    have h2 := b64Val_b64Chr (x % 4 * 16 + y / 16) (by omega)
    have h3 := b64Val_b64Chr (y % 16 * 4) (by omega)
    simp [b64EncodeNoPad, b64DecodeNoPad, b64Vals, h1, h2, h3, b64DecodeVals]
    constructor
    · omega
    · omega
  · intro x y z rest ih h
    have hx : x < 256 := h x (by simp)
    have hy : y < 256 := h y (by simp)
    have hz : z < 256 := h z (by simp)
    have ihr := ih (fun a ha => h a (by simp [ha]))
    have h1 := b64Val_b64Chr (x / 4) (by omega)
    have h2 := b64Val_b64Chr (x % 4 * 16 + y / 16) (by omega)
    have h3 := b64Val_b64Chr (y % 16 * 4 + z / 64) (by omega)
    have h4 := b64Val_b64Chr (z % 64) (by omega)
    cases hm : b64Vals (b64EncodeNoPad rest) with
    | none =>
      rw [b64DecodeNoPad, hm] at ihr
      exact absurd ihr (by simp)
    | some vals =>
      simp only [b64DecodeNoPad, hm] at ihr
      have hv : b64Vals (b64EncodeNoPad (x :: y :: z :: rest)) =
          some (x / 4 :: (x % 4 * 16 + y / 16) :: (y % 16 * 4 + z / 64) :: z % 64 :: vals) := by
        simp [b64EncodeNoPad, b64Vals, h1, h2, h3, h4, hm]
      rw [b64DecodeNoPad, hv]
      simp only [b64DecodeVals, ihr, Option.map_some]
      have e1 : x / 4 * 4 + (x % 4 * 16 + y / 16) / 16 = x := by omega
      have e2 : (x % 4 * 16 + y / 16) % 16 * 16 + (y % 16 * 4 + z / 64) / 4 = y := by omega
      have e3 : (y % 16 * 4 + z / 64) % 4 * 64 + z % 64 = z := by omega
      rw [e1, e2, e3]
      rfl

theorem b64Vals_trailing_eq_none : ∀ l : List Char, b64Vals (l ++ ['=']) = none
  | [] => rfl
  | c :: rest => by
    have ih := b64Vals_trailing_eq_none rest
    show (match b64Val c, b64Vals (rest ++ ['=']) with
      | some v, some vs => some (v :: vs)
      | _, _ => none) = none
    rw [ih]
    cases b64Val c <;> rfl

theorem b64_decode_trailing_eq_none (l : List Char) :
    b64DecodeNoPad (l ++ ['=']) = none := by
  simp only [b64DecodeNoPad, b64Vals_trailing_eq_none l]

theorem b64_roundtrip_pad2 (bs : List Nat) (h : ∀ x ∈ bs, x < 256)
    (hlen : bs.length % 3 = 2) :
    b64DecodeNoPad (trimOneEq (b64EncodePad bs)) = some bs := by
  rw [b64EncodePad, if_neg (by omega), if_pos hlen, trimOneEq]
  rw [List.getLast?_concat, if_pos rfl, List.dropLast_concat]
  exact b64_roundtrip_noPad bs h

theorem b64_roundtrip_pad0 (bs : List Nat) (h : ∀ x ∈ bs, x < 256)
    (hlen : bs.length % 3 = 0) :
    b64DecodeNoPad (trimOneEq (b64EncodePad bs)) = some bs := by
  rw [b64EncodePad, if_neg (by omega), if_neg (by omega), List.append_nil,
    trimOneEq_encodeNoPad bs h]
  exact b64_roundtrip_noPad bs h

theorem b64_pad1_decode_fails (bs : List Nat) (hlen : bs.length % 3 = 1) :
    b64DecodeNoPad (trimOneEq (b64EncodePad bs)) = none := by
  rw [b64EncodePad, if_pos hlen]
  have hsplit : b64EncodeNoPad bs ++ ['=', '='] =
      (b64EncodeNoPad bs ++ ['=']) ++ ['='] := by simp
  rw [hsplit, trimOneEq, List.getLast?_concat, if_pos rfl, List.dropLast_concat]
  exact b64_decode_trailing_eq_none _

/-- C5 (code bug): the decoder strips only ONE trailing `=`
(`strings.TrimSuffix(data, "=")`), so a Base64URL token with two padding
characters — arising whenever the serialized user data has length ≡ 1
mod 3, e.g. `{"a":1}` whose padded token is `eyJhIjoxfQ==` — fails to
decode (HTTP 400), although the code's own comment says both padded and
unpadded values work.  The unpadded and singly-padded forms do decode. -/
theorem userdata_base64_double_padding_bug :
    b64EncodePad (strBytes "\x7b\"a\":1\x7d") = "eyJhIjoxfQ==".data ∧
    b64DecodeNoPad (trimOneEq "eyJhIjoxfQ==".data) = none ∧
    decodeUserData "eyJhIjoxfQ==" true unmarshalEmptyObj = none ∧
    createHandlerModel cfgReg (movieOnly hNil)
      { rtype := "movie", rid := "tt1", userData := "eyJhIjoxfQ==", ifNoneMatch := "" } =
      sendStatus 400 ∧
    b64DecodeNoPad (trimOneEq "eyJhIjoxfQ".data) = some (strBytes "\x7b\"a\":1\x7d") ∧
    b64DecodeNoPad (trimOneEq (b64EncodePad (strBytes "ab"))) = some (strBytes "ab") := by
  refine ⟨by decide, by decide, rfl, by decide, by decide, by decide⟩

/-! ## C2: `configurationRequired` on the two manifest paths -/

/-- C2 (amended): the plain `/manifest.json` path with no callback returns
the manifest with the declared `configurationRequired` value; the user-data
path returns the manifest with `configurationRequired = false` provided the
user data resolves (an undecodable token with a registered type yields 400
instead); with a callback accepting (status < 400), the user-data-path
response is the callback's mutated clone with the flag forced to `false`
*after* the callback ran, while the plain path applies no forcing. -/
theorem manifest_configuration_required
    (m : Manifest) (cfg : ManifestHCfg) (uds : String) (ud : UserDataVal)
    (hne : uds ≠ "")
    (hud : manifestResolveUserData cfg uds = some ud) :
    manifestHandlerModel m none cfg "" =
      { status := 200, body := marshalManifest m,
        contentType := some mimeApplicationJSON, cacheControl := none, eTag := none } ∧
    manifestHandlerModel m none cfg uds =
      { status := 200, body := marshalManifest m.withConfigurationNotRequired,
        contentType := some mimeApplicationJSON, cacheControl := none, eTag := none } ∧
    (m.withConfigurationNotRequired).behaviorHints.configurationRequired = false ∧
    (∀ cb : ManifestCallbackModel, ∀ st mm, cb (m.clone 0).1 ud = (st, mm) → st < 400 →
      manifestHandlerModel m (some cb) cfg uds =
        { status := 200, body := marshalManifest mm.withConfigurationNotRequired,
          contentType := some mimeApplicationJSON, cacheControl := none, eTag := none }) ∧
    (∀ cb : ManifestCallbackModel, ∀ st mm ud0,
      manifestResolveUserData cfg "" = some ud0 →
      cb (m.clone 0).1 ud0 = (st, mm) → st < 400 →
      manifestHandlerModel m (some cb) cfg "" =
        { status := 200, body := marshalManifest mm,
          contentType := some mimeApplicationJSON, cacheControl := none, eTag := none }) ∧
    (∀ s, s ≠ "" → cfg.userDataRegistered = true →
      decodeUserData s cfg.userDataIsBase64 cfg.unmarshal = none →
      manifestHandlerModel m none cfg s = sendStatus 400) := by
  refine ⟨?_, ?_, rfl, ?_, ?_, ?_⟩
  · simp [manifestHandlerModel, manifestResolveUserData]
  · simp [manifestHandlerModel, hud, hne]
  · intro cb st mm hcb hst
    simp [manifestHandlerModel, hud, hne, hcb, Nat.not_le.mpr hst]
  · intro cb st mm ud0 hud0 hcb hst
    simp [manifestHandlerModel, hud0, hcb, Nat.not_le.mpr hst]
  · intro s hs hreg hdec
    simp [manifestHandlerModel, manifestResolveUserData, hs, hreg, hdec]

/-- Witness for C2's amended theorem: concrete manifest with the flag
declared `true`, no registered user-data type, token `abc`, and an accepting
identity callback. -/
theorem manifest_configuration_required_witness :
    manifestHandlerModel mFixture none mcfgNoReg "" =
      { status := 200, body := marshalManifest mFixture,
        contentType := some mimeApplicationJSON, cacheControl := none, eTag := none } ∧
    manifestHandlerModel mFixture none mcfgNoReg "abc" =
      { status := 200, body := marshalManifest mFixture.withConfigurationNotRequired,
        contentType := some mimeApplicationJSON, cacheControl := none, eTag := none } ∧
    mFixture.withConfigurationNotRequired.behaviorHints.configurationRequired = false ∧
    manifestHandlerModel mFixture (some (fun man _ => (0, man))) mcfgNoReg "abc" =
      { status := 200,
        body := marshalManifest ((mFixture.clone 0).1).withConfigurationNotRequired,
        contentType := some mimeApplicationJSON, cacheControl := none, eTag := none } := by
  have h := manifest_configuration_required mFixture mcfgNoReg "abc" (.rawStr "abc")
    (by decide) rfl
  exact ⟨h.1, h.2.1, h.2.2.1,
    h.2.2.2.1 (fun man _ => (0, man)) 0 (mFixture.clone 0).1 rfl (by decide)⟩

/-- Counterexample to C2 as stated: with a registered user-data type, the
non-empty but undecodable token `!` yields 400, not a manifest response with
`configurationRequired = false`. -/
theorem manifest_configuration_required_counterexample :
    mFixture.behaviorHints.configurationRequired = true ∧
    manifestHandlerModel mFixture none mcfgReg "!" = sendStatus 400 ∧
    (manifestHandlerModel mFixture none mcfgReg "!").status ≠ 200 := by
  refine ⟨rfl, by decide, by decide⟩

/-! ## C4: `Manifest.clone` is a value-preserving deep copy with fresh
allocations -/

theorem cloneListCtr_map {α β : Type} (f : α → Nat → α × Nat) (g : α → β)
    (hf : ∀ a c, g (f a c).1 = g a) :
    ∀ (l : List α) (c : Nat), ((cloneListCtr f l c).1).map g = l.map g
  | [], _ => rfl
  | a :: as, c => by
    simp only [cloneListCtr, List.map_cons, hf a c]
    rw [cloneListCtr_map f g hf as (f a c).2]

theorem cloneSliceCtr_erase {α β : Type} (f : α → Nat → α × Nat) (g : α → β)
    (hf : ∀ a c, g (f a c).1 = g a) (s : Option (GoSlice α)) (c : Nat) :
    eraseSlice g (cloneSliceCtr f s c).1 = eraseSlice g s := by
  cases s with
  | none => rfl
  | some sl =>
    simp only [cloneSliceCtr, eraseSlice]
    rw [cloneListCtr_map f g hf sl.data (c + 1)]

theorem extraItem_clone_erase (ei : ExtraItem) (c : Nat) :
    ((ei.clone c).1).erase = ei.erase := by
  simp only [ExtraItem.clone, ExtraItem.erase]
  rw [cloneSliceCtr_erase cloneScalar (fun s => s) (fun _ _ => rfl)]

theorem catalogItem_clone_erase (ci : CatalogItem) (c : Nat) :
    ((ci.clone c).1).erase = ci.erase := by
  simp only [CatalogItem.clone, CatalogItem.erase]
  rw [cloneSliceCtr_erase ExtraItem.clone ExtraItem.erase extraItem_clone_erase]

theorem resourceItem_clone_erase (ri : ResourceItem) (c : Nat) :
    ((ri.clone c).1).erase = ri.erase := by
  simp only [ResourceItem.clone, ResourceItem.erase]
  rw [cloneSliceCtr_erase cloneScalar (fun s => s) (fun _ _ => rfl),
    cloneSliceCtr_erase cloneScalar (fun s => s) (fun _ _ => rfl)]

theorem manifest_clone_value_erase (m : Manifest) (c : Nat) :
    ((m.clone c).1).erase = m.erase := by
  simp only [Manifest.clone, Manifest.erase]
  rw [cloneSliceCtr_erase ResourceItem.clone ResourceItem.erase resourceItem_clone_erase,
    cloneSliceCtr_erase cloneScalar (fun s => s) (fun _ _ => rfl),
    cloneSliceCtr_erase CatalogItem.clone CatalogItem.erase catalogItem_clone_erase,
    cloneSliceCtr_erase cloneScalar (fun s => s) (fun _ _ => rfl)]

theorem cloneListCtr_bounds {α : Type} (f : α → Nat → α × Nat) (idsF : α → List Nat)
    (hf : ∀ a c, c ≤ (f a c).2 ∧ ∀ i ∈ idsF (f a c).1, c ≤ i ∧ i < (f a c).2) :
    ∀ (l : List α) (c : Nat), c ≤ (cloneListCtr f l c).2 ∧
      ∀ i ∈ ((((cloneListCtr f l c).1).map idsF).flatten), c ≤ i ∧ i < (cloneListCtr f l c).2
  | [], c => ⟨Nat.le_refl c, by simp [cloneListCtr]⟩
  | a :: as, c => by
    have h1 := hf a c
    have h2 := cloneListCtr_bounds f idsF hf as (f a c).2
    simp only [cloneListCtr, List.map_cons, List.flatten_cons]
    refine ⟨Nat.le_trans h1.1 h2.1, ?_⟩
    intro i hi
    rw [List.mem_append] at hi
    rcases hi with hi | hi
    · have hb := h1.2 i hi
      exact ⟨hb.1, Nat.lt_of_lt_of_le hb.2 h2.1⟩
    · have hb := h2.2 i hi
      exact ⟨Nat.le_trans h1.1 hb.1, hb.2⟩

theorem cloneSliceCtr_bounds {α : Type} (f : α → Nat → α × Nat) (idsF : α → List Nat)
    (hf : ∀ a c, c ≤ (f a c).2 ∧ ∀ i ∈ idsF (f a c).1, c ≤ i ∧ i < (f a c).2)
    (s : Option (GoSlice α)) (c : Nat) :
    c ≤ (cloneSliceCtr f s c).2 ∧
      ∀ i ∈ sliceIds idsF (cloneSliceCtr f s c).1, c ≤ i ∧ i < (cloneSliceCtr f s c).2 := by
  cases s with
  | none => exact ⟨Nat.le_refl c, by simp [cloneSliceCtr, sliceIds]⟩
  | some sl =>
    have h := cloneListCtr_bounds f idsF hf sl.data (c + 1)
    simp only [cloneSliceCtr, sliceIds]
    refine ⟨by omega, ?_⟩
    intro i hi
    rw [List.mem_cons] at hi
    rcases hi with rfl | hi
    · exact ⟨Nat.le_refl i, by omega⟩
    · have hb := h.2 i hi
      omega

theorem extraItem_clone_bounds (ei : ExtraItem) (c : Nat) :
    c ≤ (ei.clone c).2 ∧ ∀ i ∈ ((ei.clone c).1).ids, c ≤ i ∧ i < (ei.clone c).2 := by
  have h := cloneSliceCtr_bounds cloneScalar noIds
    (fun a c => ⟨Nat.le_refl c, by simp [noIds, cloneScalar]⟩) ei.options c
  exact h

theorem catalogItem_clone_bounds (ci : CatalogItem) (c : Nat) :
    c ≤ (ci.clone c).2 ∧ ∀ i ∈ ((ci.clone c).1).ids, c ≤ i ∧ i < (ci.clone c).2 := by
  have h := cloneSliceCtr_bounds ExtraItem.clone ExtraItem.ids
    extraItem_clone_bounds ci.extra c
  exact h

theorem resourceItem_clone_bounds (ri : ResourceItem) (c : Nat) :
    c ≤ (ri.clone c).2 ∧ ∀ i ∈ ((ri.clone c).1).ids, c ≤ i ∧ i < (ri.clone c).2 := by
  have hscalar : ∀ (a : String) (c : Nat), c ≤ (cloneScalar a c).2 ∧
      ∀ i ∈ noIds (cloneScalar a c).1, c ≤ i ∧ i < (cloneScalar a c).2 :=
    fun a c => ⟨Nat.le_refl c, by simp [noIds, cloneScalar]⟩
  have h1 := cloneSliceCtr_bounds cloneScalar noIds hscalar ri.types c
  have h2 := cloneSliceCtr_bounds cloneScalar noIds hscalar ri.idPrefixes
    (cloneSliceCtr cloneScalar ri.types c).2
  refine ⟨Nat.le_trans h1.1 h2.1, ?_⟩
  intro i hi
  simp only [ResourceItem.clone, ResourceItem.ids, List.mem_append] at hi
  rcases hi with hi | hi
  · have hb := h1.2 i hi
    exact ⟨hb.1, Nat.lt_of_lt_of_le hb.2 h2.1⟩
  · have hb := h2.2 i hi
    exact ⟨Nat.le_trans h1.1 hb.1, hb.2⟩

theorem manifest_clone_id_bounds (m : Manifest) (c : Nat) :
    c ≤ (m.clone c).2 ∧ ∀ i ∈ ((m.clone c).1).ids, c ≤ i ∧ i < (m.clone c).2 := by
  have hscalar : ∀ (a : String) (c : Nat), c ≤ (cloneScalar a c).2 ∧
      ∀ i ∈ noIds (cloneScalar a c).1, c ≤ i ∧ i < (cloneScalar a c).2 :=
    fun a c => ⟨Nat.le_refl c, by simp [noIds, cloneScalar]⟩
  have h1 := cloneSliceCtr_bounds ResourceItem.clone ResourceItem.ids
    resourceItem_clone_bounds m.resourceItems c
  have h2 := cloneSliceCtr_bounds cloneScalar noIds hscalar m.types
    (cloneSliceCtr ResourceItem.clone m.resourceItems c).2
  have h3 := cloneSliceCtr_bounds CatalogItem.clone CatalogItem.ids
    catalogItem_clone_bounds m.catalogs
    (cloneSliceCtr cloneScalar m.types
      (cloneSliceCtr ResourceItem.clone m.resourceItems c).2).2
  have h4 := cloneSliceCtr_bounds cloneScalar noIds hscalar m.idPrefixes
    (cloneSliceCtr CatalogItem.clone m.catalogs
      (cloneSliceCtr cloneScalar m.types
        (cloneSliceCtr ResourceItem.clone m.resourceItems c).2).2).2
  simp only [Manifest.clone]
  refine ⟨by omega, ?_⟩
  intro i hi
  simp only [Manifest.ids, List.mem_append] at hi
  rcases hi with ((hi | hi) | hi) | hi
  · have hb := h1.2 i hi
    omega
  · have hb := h2.2 i hi
    omega
  · have hb := h3.2 i hi
    omega
  · have hb := h4.2 i hi
    omega

theorem setSliceIf_id {α : Type} (idsF : α → List Nat) (i : Nat) (xs : List α)
    (s : Option (GoSlice α)) (h : i ∉ sliceIds idsF s) : setSliceIf i xs s = s := by
  cases s with
  | none => rfl
  | some sl =>
    rw [setSliceIf, if_neg]
    intro he
    exact h (List.mem_cons.mpr (Or.inl he.symm))

theorem mapSliceElems_id {α : Type} (f : α → α) (s : Option (GoSlice α))
    (h : ∀ sl, s = some sl → ∀ a ∈ sl.data, f a = a) : mapSliceElems f s = s := by
  cases s with
  | none => rfl
  | some sl =>
    rw [mapSliceElems]
    have hm : sl.data.map f = sl.data := by
      have := List.map_congr_left (g := id) (h sl rfl)
      simpa using this
    rw [hm]

theorem mem_sliceIds_of_elem {α : Type} (idsF : α → List Nat) (sl : GoSlice α)
    (a : α) (ha : a ∈ sl.data) (i : Nat) (hi : i ∈ idsF a) :
    i ∈ sliceIds idsF (some sl) := by
  apply List.mem_cons_of_mem
  rw [List.mem_flatten]
  exact ⟨idsF a, List.mem_map_of_mem idsF ha, hi⟩

theorem extraItem_setStr_id (i : Nat) (xs : List String) (ei : ExtraItem)
    (h : i ∉ ei.ids) : ExtraItem.setStr i xs ei = ei := by
  rw [ExtraItem.setStr, setSliceIf_id noIds i xs ei.options h]

theorem catalogItem_setStr_id (i : Nat) (xs : List String) (ci : CatalogItem)
    (h : i ∉ ci.ids) : CatalogItem.setStr i xs ci = ci := by
  rw [CatalogItem.setStr, mapSliceElems_id]
  intro sl hsl a ha
  apply extraItem_setStr_id
  intro hmem
  apply h
  show i ∈ sliceIds ExtraItem.ids ci.extra
  rw [hsl]
  exact mem_sliceIds_of_elem ExtraItem.ids sl a ha i hmem

theorem resourceItem_setStr_id (i : Nat) (xs : List String) (ri : ResourceItem)
    (h : i ∉ ri.ids) : ResourceItem.setStr i xs ri = ri := by
  simp only [ResourceItem.ids, List.mem_append, not_or] at h
  rw [ResourceItem.setStr, setSliceIf_id noIds i xs ri.types h.1,
    setSliceIf_id noIds i xs ri.idPrefixes h.2]

theorem catalogItem_setExtra_id (i : Nat) (xs : List ExtraItem) (ci : CatalogItem)
    (h : i ∉ ci.ids) : CatalogItem.setExtra i xs ci = ci := by
  rw [CatalogItem.setExtra, setSliceIf_id ExtraItem.ids i xs ci.extra h]

theorem manifest_setStr_id (i : Nat) (xs : List String) (m : Manifest)
    (h : i ∉ m.ids) : Manifest.setStr i xs m = m := by
  simp only [Manifest.ids, List.mem_append, not_or] at h
  rw [Manifest.setStr, setSliceIf_id noIds i xs m.types h.1.1.2,
    setSliceIf_id noIds i xs m.idPrefixes h.2]
  rw [mapSliceElems_id (ResourceItem.setStr i xs) m.resourceItems]
  · rw [mapSliceElems_id (CatalogItem.setStr i xs) m.catalogs]
    intro sl hsl a ha
    apply catalogItem_setStr_id
    intro hmem
    apply h.1.2
    rw [hsl]
    exact mem_sliceIds_of_elem CatalogItem.ids sl a ha i hmem
  · intro sl hsl a ha
    apply resourceItem_setStr_id
    intro hmem
    apply h.1.1.1
    rw [hsl]
    exact mem_sliceIds_of_elem ResourceItem.ids sl a ha i hmem

theorem manifest_setExtra_id (i : Nat) (xs : List ExtraItem) (m : Manifest)
    (h : i ∉ m.ids) : Manifest.setExtra i xs m = m := by
  simp only [Manifest.ids, List.mem_append, not_or] at h
  rw [Manifest.setExtra, mapSliceElems_id (CatalogItem.setExtra i xs) m.catalogs]
  intro sl hsl a ha
  apply catalogItem_setExtra_id
  intro hmem
  apply h.1.2
  rw [hsl]
  exact mem_sliceIds_of_elem CatalogItem.ids sl a ha i hmem

theorem manifest_setCat_id (i : Nat) (xs : List CatalogItem) (m : Manifest)
    (h : i ∉ m.ids) : Manifest.setCat i xs m = m := by
  simp only [Manifest.ids, List.mem_append, not_or] at h
  rw [Manifest.setCat, setSliceIf_id CatalogItem.ids i xs m.catalogs h.1.2]

theorem manifest_setRes_id (i : Nat) (xs : List ResourceItem) (m : Manifest)
    (h : i ∉ m.ids) : Manifest.setRes i xs m = m := by
  simp only [Manifest.ids, List.mem_append, not_or] at h
  rw [Manifest.setRes, setSliceIf_id ResourceItem.ids i xs m.resourceItems h.1.1.1]

/-- C4 (confirmed): `clone` preserves the manifest's value view (structural
equality, including keeping nil slices nil), its allocations all lie in the
fresh range `[c, …)`, and — allocations being disjoint — in-place mutations
of any nested sequence of the clone leave the original unchanged and vice
versa, for every element type of nested sequence (strings, extras, catalog
items, resource items). -/
theorem manifest_clone_deep_copy (m : Manifest) (c : Nat)
    (hc : ∀ i ∈ m.ids, i < c) :
    ((m.clone c).1).erase = m.erase ∧
    (∀ i ∈ ((m.clone c).1).ids, c ≤ i) ∧
    (∀ i ∈ ((m.clone c).1).ids, ∀ xs, m.setStr i xs = m) ∧
    (∀ i ∈ ((m.clone c).1).ids, ∀ xs, m.setExtra i xs = m) ∧
    (∀ i ∈ ((m.clone c).1).ids, ∀ xs, m.setCat i xs = m) ∧
    (∀ i ∈ ((m.clone c).1).ids, ∀ xs, m.setRes i xs = m) ∧
    (∀ i ∈ m.ids, ∀ xs, ((m.clone c).1).setStr i xs = (m.clone c).1) ∧
    (∀ i ∈ m.ids, ∀ xs, ((m.clone c).1).setExtra i xs = (m.clone c).1) ∧
    (∀ i ∈ m.ids, ∀ xs, ((m.clone c).1).setCat i xs = (m.clone c).1) ∧
    (∀ i ∈ m.ids, ∀ xs, ((m.clone c).1).setRes i xs = (m.clone c).1) := by
  have hb := manifest_clone_id_bounds m c
  have hcloneFresh : ∀ i ∈ ((m.clone c).1).ids, i ∉ m.ids := by
    intro i hi hmem
    have h1 := (hb.2 i hi).1
    have h2 := hc i hmem
    omega
  have hmOld : ∀ i ∈ m.ids, i ∉ ((m.clone c).1).ids := by
    intro i hi hmem
    have h1 := (hb.2 i hmem).1
    have h2 := hc i hi
    omega
  refine ⟨manifest_clone_value_erase m c, fun i hi => (hb.2 i hi).1,
    fun i hi xs => manifest_setStr_id i xs m (hcloneFresh i hi),
    fun i hi xs => manifest_setExtra_id i xs m (hcloneFresh i hi),
    fun i hi xs => manifest_setCat_id i xs m (hcloneFresh i hi),
    fun i hi xs => manifest_setRes_id i xs m (hcloneFresh i hi),
    fun i hi xs => manifest_setStr_id i xs (m.clone c).1 (hmOld i hi),
    fun i hi xs => manifest_setExtra_id i xs (m.clone c).1 (hmOld i hi),
    fun i hi xs => manifest_setCat_id i xs (m.clone c).1 (hmOld i hi),
    fun i hi xs => manifest_setRes_id i xs (m.clone c).1 (hmOld i hi)⟩

/-- Witness for C4's theorem at a fully populated manifest, with allocation
counter 100 (all fixture allocation identifiers are below 100). -/
theorem manifest_clone_deep_copy_witness :
    (∀ i ∈ mFull.ids, i < 100) ∧
    ((mFull.clone 100).1).erase = mFull.erase ∧
    (∀ i ∈ ((mFull.clone 100).1).ids, 100 ≤ i) ∧
    (∀ i ∈ ((mFull.clone 100).1).ids, ∀ xs, mFull.setStr i xs = mFull) := by
  have h := manifest_clone_deep_copy mFull 100 (by decide)
  exact ⟨by decide, h.1, h.2.1, h.2.2.1⟩

end Stremio
